import Mathlib

/-!
Shallow embedding of the connection-admission / load-distribution core of the
mmorpg-server gateway: the `ConnectionManagerAgent` session registry
(`src/agents/connection_manager/connection_manager.cpp`) and the
`LoadBalancer` node registry (`src/network/load_balancer.cpp`,
`include/network/load_balancer.hpp`).

Machine integers: the `uint32_t` counters (`current_connections_`,
`round_robin_index_`, per-node `current_connections`) are modelled as `Nat`
with explicit `% 2^32` at every mutation.  `double` gauges and scores are
modelled as `ℚ`.  `std::chrono` time points are modelled as `Nat` ticks, and
every operation that reads the clock takes the current time as an explicit
argument.  `std::unordered_map` is modelled as an association list with
first-occurrence lookup, which is observationally faithful because the C++
maps never hold a duplicate key.  `std::hash<std::string>` is an opaque
deterministic function, modelled as an arbitrary parameter `String → Nat`;
the `mt19937` draw inside weighted round robin is likewise passed in as an
explicit `ℚ` argument.
-/

namespace MMORPG

/-- Modulus of the `uint32_t` counters (2^32). -/
def U32 : Nat := 4294967296

/-! ### Association-list primitives (model of `std::unordered_map`) -/

/-- Model of `map[k] = v`: overwrite the value of the first entry with key
`k`, or append a fresh entry when the key is absent. -/
def insertAssoc {α : Type} (k : String) (v : α) : List (String × α) → List (String × α)
  | [] => [(k, v)]
  | p :: ps => if p.1 == k then (k, v) :: ps else p :: insertAssoc k v ps

/-- Model of `map.erase(map.find(k))`: drop the first entry with key `k`. -/
def eraseKey {α : Type} (k : String) : List (String × α) → List (String × α)
  | [] => []
  | p :: ps => if p.1 == k then ps else p :: eraseKey k ps

/-- Model of mutating the value found by `map.find(k)` in place. -/
def updateValue {α : Type} (k : String) (f : α → α) : List (String × α) → List (String × α)
  | [] => []
  | p :: ps => if p.1 == k then (p.1, f p.2) :: ps else p :: updateValue k f ps

/-- `map.find(k) != map.end()`. -/
def containsKey {α : Type} (k : String) (l : List (String × α)) : Bool :=
  (List.lookup k l).isSome

/-! ### ConnectionManagerAgent (`connection_manager.cpp`) -/

/-- `ConnectionInfo` from `connection_manager.hpp` (time points as ticks,
`uint64_t` byte counters as `Nat`). -/
structure ConnectionInfo where
  connection_id : String
  user_id : String
  ip_address : String
  connected_at : Nat
  last_activity : Nat
  is_authenticated : Bool
  bytes_sent : Nat
  bytes_received : Nat
deriving DecidableEq

/-- Registry state of `ConnectionManagerAgent`: `max_connections_`,
`current_connections_` and the `connections_` map. -/
structure CMState where
  max_connections : Nat
  current_connections : Nat
  connections : List (String × ConnectionInfo)
deriving DecidableEq

/-- `ConnectionManagerAgent::handle_new_connection`: reject when
`current_connections_ >= max_connections_`, otherwise build a fresh record
with `connected_at = last_activity = now`, store it with `operator[]`
(overwriting any record already under that id) and increment the counter. -/
def handle_new_connection (s : CMState) (connection_id ip_address : String) (now : Nat) :
    Bool × CMState :=
  if s.max_connections ≤ s.current_connections then
    (false, s)
  else
    let info : ConnectionInfo :=
      { connection_id := connection_id
        user_id := ""
        ip_address := ip_address
        connected_at := now
        last_activity := now
        is_authenticated := false
        bytes_sent := 0
        bytes_received := 0 }
    (true,
      { s with
        connections := insertAssoc connection_id info s.connections
        current_connections := (s.current_connections + 1) % U32 })

/-- `ConnectionManagerAgent::handle_disconnection`: erase the record and
decrement the counter when the id is present; otherwise do nothing. -/
def handle_disconnection (s : CMState) (connection_id : String) : CMState :=
  if containsKey connection_id s.connections then
    { s with
      connections := eraseKey connection_id s.connections
      current_connections := (s.current_connections + (U32 - 1)) % U32 }
  else s

/-- `ConnectionManagerAgent::authenticate_connection`: when the id is live,
set `user_id` and the `is_authenticated` flag; otherwise do nothing. -/
def authenticate_connection (s : CMState) (connection_id user_id : String) : CMState :=
  { s with
    connections :=
      updateValue connection_id
        (fun info => { info with user_id := user_id, is_authenticated := true })
        s.connections }

/-- `ConnectionManagerAgent::update_activity`: when the id is live, assign
`last_activity = now` unconditionally; otherwise do nothing. -/
def update_activity (s : CMState) (connection_id : String) (now : Nat) : CMState :=
  { s with
    connections :=
      updateValue connection_id (fun info => { info with last_activity := now })
        s.connections }

/-- Snapshot returned by `ConnectionManagerAgent::get_connection_stats`
(the four entries of the `string → double` map). -/
structure ConnectionStats where
  total_connections : Nat
  authenticated_connections : Nat
  max_connections : Nat
  connection_utilization : ℚ
deriving DecidableEq

/-- `ConnectionManagerAgent::get_connection_stats`. -/
def get_connection_stats (s : CMState) : ConnectionStats :=
  { total_connections := s.current_connections
    authenticated_connections :=
      (s.connections.filter (fun p => p.2.is_authenticated)).length
    max_connections := s.max_connections
    connection_utilization := (s.current_connections : ℚ) / (s.max_connections : ℚ) }

/-- `ConnectionManagerAgent::cleanup_inactive_connections`: phase one collects
every id with `now - last_activity > timeout`; phase two disconnects each
collected id through `handle_disconnection`. -/
def cleanup_inactive_connections (s : CMState) (now timeout : Nat) : CMState :=
  let to_remove :=
    (s.connections.filter (fun p => decide (timeout < now - p.2.last_activity))).map Prod.fst
  to_remove.foldl handle_disconnection s

/-! ### Concrete duplicate-admission run (claims C1 and C2) -/

/-- Empty registry with capacity 10. -/
def dupRun0 : CMState :=
  { max_connections := 10, current_connections := 0, connections := [] }

/-- Admit `"c1"` at tick 100. -/
def dupRun1 : CMState := (handle_new_connection dupRun0 "c1" "1.2.3.4" 100).2

/-- Authenticate `"c1"` as `"u1"`. -/
def dupRun2 : CMState := authenticate_connection dupRun1 "c1" "u1"

/-- Second admission of the already-live id `"c1"`, at tick 200. -/
def dupRun3 : Bool × CMState := handle_new_connection dupRun2 "c1" "5.6.7.8" 200

/-- C1: the claim says a second admission of a live id is rejected and the
existing record left unchanged.  The code has no duplicate check: the second
`handle_new_connection "c1"` returns `true`, overwrites the record (new
`connected_at`/`last_activity`, authentication flag reset to `false`) and
still increments the admitted counter to 2. -/
theorem duplicate_admission_overwrites :
    dupRun3.1 = true ∧
    dupRun3.2.current_connections = 2 ∧
    (List.lookup "c1" dupRun3.2.connections).map
      (fun i => (i.connected_at, i.last_activity, i.is_authenticated, i.user_id)) =
      some (200, 200, false, "") ∧
    (List.lookup "c1" dupRun2.connections).map
      (fun i => (i.connected_at, i.is_authenticated, i.user_id)) =
      some (100, true, "u1") := by
  decide

/-- C2: the claim says the admitted counter always equals registry size for
admission sequences bounded by `max`.  After two admissions (≤ max = 10) of
the same id, the counter is 2 while the registry holds 1 record, and the
utilization reported by stats is 2/10, not registry-size/max. -/
theorem admitted_counter_desyncs_from_registry :
    dupRun3.2.current_connections = 2 ∧
    dupRun3.2.connections.length = 1 ∧
    (get_connection_stats dupRun3.2).connection_utilization = 2 / 10 := by
  refine ⟨by decide, by decide, ?_⟩
  have h1 : dupRun3.2.current_connections = 2 := by decide
  have h2 : dupRun3.2.max_connections = 10 := by decide
  simp [get_connection_stats, h1, h2]

/-! ### LoadBalancer (`load_balancer.hpp` / `load_balancer.cpp`) -/

/-- `ServerNode` from `load_balancer.hpp` (gauges as `ℚ`, time point as
ticks). -/
structure ServerNode where
  id : String
  host : String
  port : Nat
  current_connections : Nat
  max_connections : Nat
  cpu_usage : ℚ
  memory_usage : ℚ
  is_healthy : Bool
  last_health_check : Nat
deriving DecidableEq

/-- `ServerNode::get_load_score`:
`cpu * 0.4 + memory * 0.3 + (current / max) * 0.3`. -/
def ServerNode.get_load_score (n : ServerNode) : ℚ :=
  (n.current_connections : ℚ) / (n.max_connections : ℚ) * (3 / 10) +
    n.cpu_usage * (4 / 10) + n.memory_usage * (3 / 10)

/-- `ServerNode::can_accept_connection`:
`healthy ∧ current < max ∧ load score < 0.8`. -/
def ServerNode.can_accept_connection (n : ServerNode) : Bool :=
  n.is_healthy && decide (n.current_connections < n.max_connections) &&
    decide (n.get_load_score < 8 / 10)

/-- `LoadBalancingStrategy` from `load_balancer.hpp`. -/
inductive LoadBalancingStrategy where
  | ROUND_ROBIN
  | LEAST_CONNECTIONS
  | LEAST_LOAD
  | WEIGHTED_ROUND_ROBIN
  | IP_HASH
deriving DecidableEq

/-- State of `LoadBalancer`: `strategy_`, the `servers_` vector,
`round_robin_index_` and the `connection_to_server_` map. -/
structure LBState where
  strategy : LoadBalancingStrategy
  servers : List ServerNode
  round_robin_index : Nat
  connection_to_server : List (String × String)
deriving DecidableEq

/-- Model of mutating the node found by `std::find_if` in place: apply `f`
to the first element satisfying `p`, keep everything else. -/
def updateFirst {α : Type} (p : α → Bool) (f : α → α) : List α → List α
  | [] => []
  | x :: xs => if p x then f x :: xs else x :: updateFirst p f xs

/-- `LoadBalancer::add_server`: append a node with the default field values
of `ServerNode` (`current_connections = 0`, gauges 0, healthy) and the given
capacity; `last_health_check` is set to the current time. -/
def add_server (s : LBState) (id host : String) (port max_connections now : Nat) : LBState :=
  { s with
    servers := s.servers ++
      [{ id := id
         host := host
         port := port
         current_connections := 0
         max_connections := max_connections % U32
         cpu_usage := 0
         memory_usage := 0
         is_healthy := true
         last_health_check := now }] }

/-- `LoadBalancer::select_round_robin`: on a non-empty vector, read the old
value of `round_robin_index_` (a `fetch_add(1)`, so the stored index wraps at
2^32), and pick `servers_[old % size]`. -/
def select_round_robin (s : LBState) : String × LBState :=
  match s.servers with
  | [] => ("", s)
  | _ =>
    let index := s.round_robin_index % s.servers.length
    (((s.servers.get? index).map ServerNode.id).getD "",
      { s with round_robin_index := (s.round_robin_index + 1) % U32 })

/-- Model of `std::min_element`: the first element whose key is minimal
(`foldl` keeps the current candidate on ties). -/
def minByFirst {α β : Type} [LinearOrder β] (f : α → β) : List α → Option α
  | [] => none
  | x :: xs => some (xs.foldl (fun m y => if f y < f m then y else m) x)

/-- `LoadBalancer::select_least_connections`: `min_element` over the whole
`servers_` vector by `current_connections`. -/
def select_least_connections (servers : List ServerNode) : String :=
  match minByFirst (fun n => n.current_connections) servers with
  | none => ""
  | some n => n.id

/-- `LoadBalancer::select_least_load`: `min_element` over the whole
`servers_` vector by `get_load_score`. -/
def select_least_load (servers : List ServerNode) : String :=
  match minByFirst ServerNode.get_load_score servers with
  | none => ""
  | some n => n.id

/-- Loop body of `LoadBalancer::select_weighted_round_robin`: walk the
vector accumulating `current_weight += 1/max_connections` and return the
first node with `random_value <= current_weight`. -/
def pickWeighted (draw : ℚ) (lastId : String) : ℚ → List ServerNode → String
  | _, [] => lastId
  | acc, n :: ns =>
    let acc' := acc + 1 / (n.max_connections : ℚ)
    if draw ≤ acc' then n.id else pickWeighted draw lastId acc' ns

/-- `LoadBalancer::select_weighted_round_robin`, with the `mt19937` draw
passed in explicitly; falls back to `servers_.back()` when the draw exceeds
every cumulative weight. -/
def select_weighted_round_robin (servers : List ServerNode) (draw : ℚ) : String :=
  match servers.getLast? with
  | none => ""
  | some lastNode => pickWeighted draw lastNode.id 0 servers

/-- `LoadBalancer::select_ip_hash`: `hash(client_ip) % servers_.size()`,
truncated into the `uint32_t` index, over the whole `servers_` vector.  The
`std::hash` function (a `size_t`, hence already `% 2^64`) is an explicit
parameter. -/
def select_ip_hash (hash : String → Nat) (servers : List ServerNode) (client_ip : String) :
    String :=
  match servers with
  | [] => ""
  | _ =>
    let index := hash client_ip % 18446744073709551616 % servers.length % U32
    ((servers.get? index).map ServerNode.id).getD ""

/-- `LoadBalancer::select_server`: empty vector ⇒ `""`; compute the vector of
healthy nodes and return `""` when it is empty; otherwise dispatch on
`strategy_` — each strategy routine then reads the whole `servers_` vector,
not the healthy subset. -/
def select_server (hash : String → Nat) (draw : ℚ) (s : LBState) (client_ip : String) :
    String × LBState :=
  if s.servers.isEmpty then ("", s)
  else
    let healthy_servers := s.servers.filter (fun n => n.is_healthy)
    if healthy_servers.isEmpty then ("", s)
    else
      match s.strategy with
      | .ROUND_ROBIN => select_round_robin s
      | .LEAST_CONNECTIONS => (select_least_connections s.servers, s)
      | .LEAST_LOAD => (select_least_load s.servers, s)
      | .WEIGHTED_ROUND_ROBIN => (select_weighted_round_robin s.servers draw, s)
      | .IP_HASH => (select_ip_hash hash s.servers client_ip, s)

/-- `LoadBalancer::assign_connection`: `find_if` on the server id — not found
⇒ `false`; `can_accept_connection` false ⇒ `false`; otherwise
`fetch_add(1)` on that node's counter and `connection_to_server_[id] =
server_id`, returning `true`. -/
def assign_connection (s : LBState) (server_id connection_id : String) : Bool × LBState :=
  match s.servers.find? (fun n => n.id == server_id) with
  | none => (false, s)
  | some n =>
    if n.can_accept_connection then
      (true,
        { s with
          servers :=
            updateFirst (fun m => m.id == server_id)
              (fun m => { m with current_connections := (m.current_connections + 1) % U32 })
              s.servers
          connection_to_server := insertAssoc connection_id server_id s.connection_to_server })
    else (false, s)

/-- `LoadBalancer::release_connection`: when `find_if` locates the server,
`fetch_sub(1)` on its `uint32_t` counter (wrapping at 0); then — whether or
not the server was found — erase the connection id from
`connection_to_server_`. -/
def release_connection (s : LBState) (server_id connection_id : String) : LBState :=
  { s with
    servers :=
      updateFirst (fun m => m.id == server_id)
        (fun m => { m with current_connections := (m.current_connections + (U32 - 1)) % U32 })
        s.servers
    connection_to_server := eraseKey connection_id s.connection_to_server }

/-! ### Concrete selection runs (claims C3 and C4) -/

/-- Registered node `"A"`: marked unhealthy, zero connections, idle gauges. -/
def nodeA : ServerNode :=
  { id := "A"
    host := "hostA"
    port := 9001
    current_connections := 0
    max_connections := 100
    cpu_usage := 0
    memory_usage := 0
    is_healthy := false
    last_health_check := 0 }

/-- Registered node `"B"`: marked healthy, five connections, busy gauges. -/
def nodeB : ServerNode :=
  { id := "B"
    host := "hostB"
    port := 9002
    current_connections := 5
    max_connections := 100
    cpu_usage := 9 / 10
    memory_usage := 9 / 10
    is_healthy := true
    last_health_check := 0 }

/-- Balancer with nodes `A` (unhealthy) and `B` (healthy) under round robin. -/
def rrState : LBState :=
  { strategy := .ROUND_ROBIN
    servers := [nodeA, nodeB]
    round_robin_index := 0
    connection_to_server := [] }

/-- Balancer with the same two nodes under least connections. -/
def lcState : LBState :=
  { strategy := .LEAST_CONNECTIONS
    servers := [nodeA, nodeB]
    round_robin_index := 0
    connection_to_server := [] }

/-- Balancer with the same two nodes under least load. -/
def llState : LBState :=
  { strategy := .LEAST_LOAD
    servers := [nodeA, nodeB]
    round_robin_index := 0
    connection_to_server := [] }

/-- C3: the claim says that whenever some node is healthy, `select_server`
returns a healthy node.  `select_server` does build the healthy-only vector
and bails out when it is empty, but every strategy routine then indexes the
full `servers_` vector: with unhealthy `"A"` first and healthy `"B"` second,
round robin at index 0 returns the unhealthy node `"A"`. -/
theorem select_server_returns_unhealthy_node :
    rrState.servers = [nodeA, nodeB] ∧
    nodeA.id = "A" ∧ nodeA.is_healthy = false ∧
    nodeB.id = "B" ∧ nodeB.is_healthy = true ∧
    (select_server (fun _ => 0) 0 rrState "10.0.0.1").1 = "A" := by
  exact ⟨rfl, rfl, rfl, rfl, rfl, rfl⟩

/-- C4: the claim says least-connections / least-load selection returns a
healthy node minimizing the metric among healthy nodes.  Both routines take
`min_element` over the whole `servers_` vector: unhealthy `"A"` (0
connections, load score 0) beats healthy `"B"` (5 connections, load score
129/200) under both strategies and is returned despite being unhealthy. -/
theorem least_selection_ignores_health :
    lcState.servers = [nodeA, nodeB] ∧ llState.servers = [nodeA, nodeB] ∧
    nodeA.is_healthy = false ∧ nodeB.is_healthy = true ∧
    (select_server (fun _ => 0) 0 lcState "10.0.0.1").1 = "A" ∧
    (select_server (fun _ => 0) 0 llState "10.0.0.1").1 = "A" := by
  have hscore : ¬ (nodeB.get_load_score < nodeA.get_load_score) := by
    norm_num [ServerNode.get_load_score, nodeA, nodeB]
  refine ⟨rfl, rfl, rfl, rfl, rfl, ?_⟩
  show (if nodeB.get_load_score < nodeA.get_load_score then nodeB else nodeA).id = "A"
  rw [if_neg hscore]
  rfl

/-! ### Lemmas about the list primitives -/

theorem find?_updateFirst {α : Type} (p : α → Bool) (f : α → α)
    (hp : ∀ x, p (f x) = p x) (l : List α) :
    (updateFirst p f l).find? p = (l.find? p).map f := by
  induction l with
  | nil => rfl
  | cons x xs ih =>
    by_cases hx : p x
    · rw [updateFirst, if_pos hx, List.find?_cons_of_pos _ (by rw [hp x]; exact hx),
        List.find?_cons_of_pos _ hx, Option.map_some']
    · rw [updateFirst, if_neg hx, List.find?_cons_of_neg _ hx,
        List.find?_cons_of_neg _ hx, ih]

theorem updateFirst_of_find?_none {α : Type} (p : α → Bool) (f : α → α) (l : List α)
    (h : l.find? p = none) : updateFirst p f l = l := by
  induction l with
  | nil => rfl
  | cons x xs ih =>
    by_cases hx : p x
    · rw [List.find?_cons_of_pos _ hx] at h
      exact absurd h (by simp)
    · rw [List.find?_cons_of_neg _ hx] at h
      rw [updateFirst, if_neg hx, ih h]

theorem mem_updateFirst_of_ne {α : Type} (p : α → Bool) (f : α → α) (l : List α)
    (n x : α) (hfind : l.find? p = some n) (hx : x ∈ l) (hne : x ≠ n) :
    x ∈ updateFirst p f l := by
  induction l with
  | nil => cases hx
  | cons y ys ih =>
    by_cases hy : p y
    · rw [List.find?_cons_of_pos _ hy, Option.some.injEq] at hfind
      rw [updateFirst, if_pos hy]
      rcases List.mem_cons.mp hx with rfl | hx'
      · exact absurd hfind hne
      · exact List.mem_cons_of_mem _ hx'
    · rw [List.find?_cons_of_neg _ hy] at hfind
      rw [updateFirst, if_neg hy]
      rcases List.mem_cons.mp hx with rfl | hx'
      · exact List.mem_cons_self _ _
      · exact List.mem_cons_of_mem _ (ih hfind hx')

theorem lookup_insertAssoc {α : Type} (k : String) (v : α) (l : List (String × α)) :
    List.lookup k (insertAssoc k v l) = some v := by
  induction l with
  | nil => simp [insertAssoc, List.lookup]
  | cons p ps ih =>
    obtain ⟨a, b⟩ := p
    by_cases h : a = k
    · subst h
      simp [insertAssoc, List.lookup]
    · have hab : (a == k) = false := by simp [h]
      have hba : (k == a) = false := by simp [Ne.symm h]
      simp [insertAssoc, List.lookup, hab, hba, ih]

theorem lookup_updateValue {α : Type} (k : String) (f : α → α) (l : List (String × α)) :
    List.lookup k (updateValue k f l) = (List.lookup k l).map f := by
  induction l with
  | nil => rfl
  | cons p ps ih =>
    obtain ⟨a, b⟩ := p
    by_cases h : a = k
    · subst h
      simp [updateValue, List.lookup]
    · have hab : (a == k) = false := by simp [h]
      have hba : (k == a) = false := by simp [Ne.symm h]
      simp [updateValue, List.lookup, hab, hba, ih]

/-! ### Release semantics (claims C5 and C10) -/

/-- Registered node `"s1"` with no live connections. -/
def wNode : ServerNode :=
  { id := "s1"
    host := "h1"
    port := 7001
    current_connections := 0
    max_connections := 1000
    cpu_usage := 0
    memory_usage := 0
    is_healthy := true
    last_health_check := 0 }

/-- The same node holding five connections. -/
def relNode : ServerNode := { wNode with current_connections := 5 }

/-- Balancer knowing only `relNode`, with an empty assignment map. -/
def relState : LBState :=
  { strategy := .LEAST_LOAD
    servers := [relNode]
    round_robin_index := 0
    connection_to_server := [] }

/-- C5 counterexample: the claim says `release` is a no-op whenever the
connection id is not currently assigned.  With `"c9"` absent from the
assignment map, `release_connection` still decrements the known server
`"s1"` from 5 to 4 connections. -/
theorem release_decrements_despite_unassigned_connection :
    List.lookup "c9" relState.connection_to_server = none ∧
    relState.servers.map (fun n => n.current_connections) = [5] ∧
    (release_connection relState "s1" "c9").servers.map
      (fun n => n.current_connections) = [4] := by
  exact ⟨rfl, rfl, rfl⟩

/-- C5 amended: `release_connection` always erases the connection id from
the assignment map; it leaves the server vector untouched exactly when the
server id is unknown, and otherwise decrements the first node carrying that
id by one modulo 2^32 — in both cases regardless of whether the connection
id was assigned. -/
theorem release_connection_spec (s : LBState) (server_id connection_id : String) :
    (release_connection s server_id connection_id).connection_to_server =
      eraseKey connection_id s.connection_to_server ∧
    (s.servers.find? (fun m => m.id == server_id) = none →
      (release_connection s server_id connection_id).servers = s.servers) ∧
    (∀ n, s.servers.find? (fun m => m.id == server_id) = some n →
      (release_connection s server_id connection_id).servers.find?
          (fun m => m.id == server_id) =
        some { n with current_connections := (n.current_connections + (U32 - 1)) % U32 }) := by
  refine ⟨rfl, ?_, ?_⟩
  · intro hnone
    exact updateFirst_of_find?_none _ _ _ hnone
  · intro n hn
    show (updateFirst (fun m => m.id == server_id)
        (fun m => { m with current_connections := (m.current_connections + (U32 - 1)) % U32 })
        s.servers).find? (fun m => m.id == server_id) = _
    rw [find?_updateFirst (fun m : ServerNode => m.id == server_id)
        (fun m : ServerNode =>
          { m with current_connections := (m.current_connections + (U32 - 1)) % U32 })
        (fun _ => rfl), hn, Option.map_some']

/-- C5 witness: releasing the unassigned connection `"c9"` from the known
server `"s1"` (5 live connections) leaves the node at 4 connections. -/
theorem release_connection_spec_witness :
    (release_connection relState "s1" "c9").servers.find? (fun m => m.id == "s1") =
      some { relNode with current_connections := 4 } :=
  (release_connection_spec relState "s1" "c9").2.2 relNode rfl

/-- C10: a release aimed at a registered node whose `uint32_t` connection
counter is 0 wraps the counter to 4294967295 — `fetch_sub(1)` has no
underflow guard. -/
theorem release_underflow_wraps (s : LBState) (server_id connection_id : String)
    (n : ServerNode)
    (hfind : s.servers.find? (fun m => m.id == server_id) = some n)
    (hzero : n.current_connections = 0) :
    (release_connection s server_id connection_id).servers.find?
        (fun m => m.id == server_id) =
      some { n with current_connections := 4294967295 } := by
  show (updateFirst (fun m => m.id == server_id)
      (fun m => { m with current_connections := (m.current_connections + (U32 - 1)) % U32 })
      s.servers).find? (fun m => m.id == server_id) = _
  rw [find?_updateFirst (fun m : ServerNode => m.id == server_id)
      (fun m : ServerNode =>
        { m with current_connections := (m.current_connections + (U32 - 1)) % U32 })
      (fun _ => rfl), hfind, Option.map_some', hzero]
  rfl

/-- C10 witness: releasing any connection id from `"s1"` while it holds zero
connections leaves its counter at 4294967295. -/
theorem release_underflow_wraps_witness :
    (release_connection
        { strategy := .LEAST_LOAD
          servers := [wNode]
          round_robin_index := 0
          connection_to_server := [] } "s1" "cX").servers.find?
        (fun m => m.id == "s1") =
      some { wNode with current_connections := 4294967295 } :=
  release_underflow_wraps _ "s1" "cX" wNode rfl rfl

/-! ### Touch / activity-timestamp semantics (claim C6) -/

/-- Registry holding one record for `"c1"` admitted at tick 10. -/
def staleCM : CMState :=
  (handle_new_connection
    { max_connections := 10, current_connections := 0, connections := [] }
    "c1" "9.9.9.9" 10).2

/-- The record stored for `"c1"` in `staleCM`. -/
def staleInfo : ConnectionInfo :=
  { connection_id := "c1"
    user_id := ""
    ip_address := "9.9.9.9"
    connected_at := 10
    last_activity := 10
    is_authenticated := false
    bytes_sent := 0
    bytes_received := 0 }

/-- C6 counterexample: the claim says `touch` never decreases
`last_activity`, even against a timestamp source that runs backwards.
`update_activity` assigns `last_activity = now` unconditionally: touching
`"c1"` (stored `last_activity = 10`) with the stale time 5 regresses the
timestamp to 5. -/
theorem touch_regresses_on_stale_clock :
    (List.lookup "c1" staleCM.connections).map (fun i => i.last_activity) = some 10 ∧
    (List.lookup "c1" (update_activity staleCM "c1" 5).connections).map
      (fun i => i.last_activity) = some 5 ∧
    ¬ (10 ≤ 5) := by
  decide

/-- C6 amended: `touch` sets `last_activity` to the supplied current time,
so it never decreases `last_activity` provided the timestamp source has not
gone backwards (`now` at least the stored value). -/
theorem update_activity_monotone (s : CMState) (connection_id : String) (now : Nat)
    (info : ConnectionInfo)
    (hlook : List.lookup connection_id s.connections = some info)
    (hclk : info.last_activity ≤ now) :
    ∃ info', List.lookup connection_id
        (update_activity s connection_id now).connections = some info' ∧
      info.last_activity ≤ info'.last_activity := by
  refine ⟨{ info with last_activity := now }, ?_, hclk⟩
  show List.lookup connection_id
      (updateValue connection_id (fun i => { i with last_activity := now }) s.connections) = _
  rw [lookup_updateValue, hlook, Option.map_some']

/-- C6 witness: touching `"c1"` (stored `last_activity = 10`) at the later
tick 99 does not decrease its `last_activity`. -/
theorem update_activity_monotone_witness :
    ∃ info', List.lookup "c1" (update_activity staleCM "c1" 99).connections = some info' ∧
      staleInfo.last_activity ≤ info'.last_activity :=
  update_activity_monotone staleCM "c1" 99 staleInfo (by decide) (by decide)

/-! ### Assignment semantics (claim C7) -/

/-- C7: `assign_connection` fails, changing nothing, when the server id is
unknown or when the node it re-checks at assignment time is at capacity
(`current ≥ max` makes `can_accept_connection` false); on success it
increments exactly the first node carrying the server id by one (mod 2^32),
records the connection-to-server mapping, and keeps every other node. -/
theorem assign_connection_spec (s : LBState) (server_id connection_id : String) :
    (s.servers.find? (fun m => m.id == server_id) = none →
      assign_connection s server_id connection_id = (false, s)) ∧
    (∀ n, s.servers.find? (fun m => m.id == server_id) = some n →
      n.max_connections ≤ n.current_connections →
      assign_connection s server_id connection_id = (false, s)) ∧
    ((assign_connection s server_id connection_id).1 = false →
      (assign_connection s server_id connection_id).2 = s) ∧
    ((assign_connection s server_id connection_id).1 = true →
      ∃ n, s.servers.find? (fun m => m.id == server_id) = some n ∧
        n.can_accept_connection = true ∧
        (assign_connection s server_id connection_id).2.servers.find?
            (fun m => m.id == server_id) =
          some { n with current_connections := (n.current_connections + 1) % U32 } ∧
        List.lookup connection_id
          (assign_connection s server_id connection_id).2.connection_to_server =
          some server_id ∧
        ∀ m, m ∈ s.servers → m ≠ n →
          m ∈ (assign_connection s server_id connection_id).2.servers) := by
  rcases hF : s.servers.find? (fun m => m.id == server_id) with _ | n
  · refine ⟨fun _ => ?_, fun n hn _ => ?_, fun _ => ?_, fun htrue => ?_⟩
    · simp [assign_connection, hF]
    · rw [hF] at hn
      cases hn
    · simp [assign_connection, hF]
    · simp [assign_connection, hF] at htrue
  · by_cases hA : n.can_accept_connection
    · have hres : assign_connection s server_id connection_id =
          (true,
            { s with
              servers :=
                updateFirst (fun m => m.id == server_id)
                  (fun m =>
                    { m with current_connections := (m.current_connections + 1) % U32 })
                  s.servers
              connection_to_server :=
                insertAssoc connection_id server_id s.connection_to_server }) := by
        simp [assign_connection, hF, hA]
      refine ⟨fun hnone => ?_, fun n' hn' hmax => ?_, fun hfalse => ?_, fun _ => ?_⟩
      · rw [hF] at hnone
        cases hnone
      · rw [hF, Option.some.injEq] at hn'
        subst hn'
        have : n.can_accept_connection = false := by
          simp [ServerNode.can_accept_connection, Nat.not_lt.mpr hmax]
        rw [this] at hA
        cases hA
      · rw [hres] at hfalse
        cases hfalse
      · refine ⟨n, hF, hA, ?_, ?_, ?_⟩
        · rw [hres]
          show (updateFirst (fun m => m.id == server_id)
              (fun m => { m with current_connections := (m.current_connections + 1) % U32 })
              s.servers).find? (fun m => m.id == server_id) = _
          rw [find?_updateFirst (fun m : ServerNode => m.id == server_id)
              (fun m : ServerNode =>
                { m with current_connections := (m.current_connections + 1) % U32 })
              (fun _ => rfl), hF, Option.map_some']
        · rw [hres]
          exact lookup_insertAssoc connection_id server_id s.connection_to_server
        · intro m hm hmne
          rw [hres]
          exact mem_updateFirst_of_ne _ _ s.servers n m hF hm hmne
    · have hres : assign_connection s server_id connection_id = (false, s) := by
        simp [assign_connection, hF, hA]
      refine ⟨fun hnone => ?_, fun n' hn' hmax => hres, fun _ => ?_, fun htrue => ?_⟩
      · rw [hF] at hnone
        cases hnone
      · rw [hres]
      · rw [hres] at htrue
        cases htrue

/-- Node `"f1"` at capacity: 3 of 3 connections in use. -/
def fullNode : ServerNode :=
  { id := "f1"
    host := "h"
    port := 1
    current_connections := 3
    max_connections := 3
    cpu_usage := 0
    memory_usage := 0
    is_healthy := true
    last_health_check := 0 }

/-- Balancer knowing only the saturated node `"f1"`. -/
def fullState : LBState :=
  { strategy := .LEAST_CONNECTIONS
    servers := [fullNode]
    round_robin_index := 0
    connection_to_server := [] }

/-- C7 witness: assigning to `"f1"`, whose `current = max = 3`, fails and
leaves the balancer state unchanged. -/
theorem assign_connection_spec_witness :
    assign_connection fullState "f1" "c1" = (false, fullState) :=
  (assign_connection_spec fullState "f1" "c1").2.1 fullNode rfl (by decide)

/-! ### Deterministic ip-hash selection (claim C9) -/

/-- C9: under the `IP_HASH` strategy `select_server` leaves the balancer
state unchanged and — for any hash function and any random draws — a repeated
call with the same client IP on the resulting state returns the same server
id. -/
theorem ip_hash_deterministic (hash : String → Nat) (draw1 draw2 : ℚ) (s : LBState)
    (client_ip : String) (hstrat : s.strategy = LoadBalancingStrategy.IP_HASH) :
    (select_server hash draw1 s client_ip).2 = s ∧
    (select_server hash draw2 (select_server hash draw1 s client_ip).2 client_ip).1 =
      (select_server hash draw1 s client_ip).1 := by
  have hrun : ∀ d : ℚ, select_server hash d s client_ip =
      (if s.servers.isEmpty then ""
       else if (s.servers.filter (fun n => n.is_healthy)).isEmpty then ""
       else select_ip_hash hash s.servers client_ip, s) := by
    intro d
    by_cases h1 : s.servers.isEmpty
    · simp [select_server, h1]
    · by_cases h2 : (s.servers.filter (fun n => n.is_healthy)).isEmpty
      · simp [select_server, h1, h2]
      · simp [select_server, h1, h2, hstrat]
  rw [hrun draw1, hrun draw2]
  exact ⟨rfl, rfl⟩

/-- Balancer with nodes `A` and `B` under the ip-hash strategy. -/
def ihState : LBState :=
  { strategy := .IP_HASH
    servers := [nodeA, nodeB]
    round_robin_index := 0
    connection_to_server := [] }

/-- C9 witness: with a concrete hash function and two different draws,
selection for `"9.9.9.9"` leaves the state unchanged and repeats the same
answer. -/
theorem ip_hash_deterministic_witness :
    (select_server (fun ip => ip.length) 0 ihState "9.9.9.9").2 = ihState ∧
    (select_server (fun ip => ip.length) 1
        (select_server (fun ip => ip.length) 0 ihState "9.9.9.9").2 "9.9.9.9").1 =
      (select_server (fun ip => ip.length) 0 ihState "9.9.9.9").1 :=
  ip_hash_deterministic (fun ip => ip.length) 0 1 ihState "9.9.9.9" rfl

/-! ### Inactivity sweep (claim C8) -/

theorem eraseKey_eq_filter {α : Type} (k : String) (l : List (String × α))
    (hnodup : (l.map Prod.fst).Nodup) :
    eraseKey k l = l.filter (fun p => !(p.1 == k)) := by
  induction l with
  | nil => rfl
  | cons p ps ih =>
    rw [List.map_cons, List.nodup_cons] at hnodup
    by_cases h : p.1 == k
    · have hk : p.1 = k := by simpa using h
      rw [eraseKey, if_pos h, List.filter_cons_of_neg (by simp [h]),
        List.filter_eq_self.mpr]
      intro q hq
      have : q.1 ≠ k := fun hqk => hnodup.1 (hk ▸ hqk ▸ List.mem_map_of_mem Prod.fst hq)
      simp [this]
    · rw [eraseKey, if_neg h, List.filter_cons_of_pos (by simp [h]), ih hnodup.2]

theorem containsKey_iff {α : Type} (k : String) (l : List (String × α)) :
    containsKey k l = true ↔ ∃ p ∈ l, k = p.1 := by
  simp [containsKey]

theorem length_eraseKey {α : Type} (k : String) (l : List (String × α))
    (h : containsKey k l = true) :
    (eraseKey k l).length + 1 = l.length := by
  induction l with
  | nil => simp [containsKey] at h
  | cons p ps ih =>
    by_cases hk : p.1 == k
    · rw [eraseKey, if_pos hk, List.length_cons]
    · have hne : ¬ k = p.1 := fun hkp => hk (by simp [hkp])
      have h' : containsKey k ps = true := by
        rcases (containsKey_iff k (p :: ps)).mp h with ⟨q, hq, hkq⟩
        rcases List.mem_cons.mp hq with rfl | hq'
        · exact absurd hkq hne
        · exact (containsKey_iff k ps).mpr ⟨q, hq', hkq⟩
      rw [eraseKey, if_neg hk, List.length_cons, List.length_cons, ih h']

theorem containsKey_filter_ne {α : Type} (k a : String) (l : List (String × α))
    (hka : k ≠ a) :
    containsKey k (l.filter (fun p => !(p.1 == a))) = containsKey k l := by
  rw [Bool.eq_iff_iff, containsKey_iff, containsKey_iff]
  constructor
  · rintro ⟨p, hp, rfl⟩
    exact ⟨p, List.mem_of_mem_filter hp, rfl⟩
  · rintro ⟨p, hp, rfl⟩
    refine ⟨p, List.mem_filter.mpr ⟨hp, ?_⟩, rfl⟩
    simpa using hka

theorem containsKey_of_mem {α : Type} (l : List (String × α)) (p : String × α)
    (hp : p ∈ l) : containsKey p.1 l = true :=
  (containsKey_iff p.1 l).mpr ⟨p, hp, rfl⟩

theorem nodupKeys_inj {α : Type} (l : List (String × α))
    (hnodup : (l.map Prod.fst).Nodup) (p q : String × α)
    (hp : p ∈ l) (hq : q ∈ l) (hfst : p.1 = q.1) : p = q := by
  induction l with
  | nil => cases hp
  | cons x xs ih =>
    rw [List.map_cons, List.nodup_cons] at hnodup
    rcases List.mem_cons.mp hp with rfl | hp' <;> rcases List.mem_cons.mp hq with rfl | hq'
    · rfl
    · exact absurd (hfst ▸ List.mem_map_of_mem Prod.fst hq') hnodup.1
    · exact absurd (hfst ▸ List.mem_map_of_mem Prod.fst hp') hnodup.1
    · exact ih hnodup.2 hp' hq'

theorem counter_dec_mod (c : Nat) (h1 : 1 ≤ c) (h2 : c < U32) :
    (c + (U32 - 1)) % U32 = c - 1 := by
  simp only [U32] at *
  omega

/-- Phase two of the sweep: folding `handle_disconnection` over a duplicate-free
list of ids that are all present removes exactly the entries carrying those
ids, and — because every removal goes through the normal remove path — leaves
the admitted counter equal to the number of surviving records. -/
theorem foldl_disconnection_spec (ids : List String) :
    ∀ s : CMState,
    (∀ id ∈ ids, containsKey id s.connections = true) →
    ids.Nodup →
    (s.connections.map Prod.fst).Nodup →
    s.current_connections = s.connections.length →
    s.connections.length < U32 →
    (ids.foldl handle_disconnection s).connections =
      s.connections.filter (fun p => !(ids.contains p.1)) ∧
    (ids.foldl handle_disconnection s).current_connections =
      (s.connections.filter (fun p => !(ids.contains p.1))).length := by
  induction ids with
  | nil =>
    intro s _ _ _ hcount _
    simp [hcount]
  | cons a ids ih =>
    intro s hsub hnodupids hnodup hcount hlt
    have ha : containsKey a s.connections = true := hsub a (List.mem_cons_self a ids)
    have hpos : 0 < s.connections.length := by
      cases hl : s.connections with
      | nil => rw [hl] at ha; simp [containsKey, List.lookup] at ha
      | cons q qs => simp [hl]
    have hstep : handle_disconnection s a =
        { s with
          connections := eraseKey a s.connections
          current_connections := (s.current_connections + (U32 - 1)) % U32 } := by
      simp [handle_disconnection, ha]
    have herase : eraseKey a s.connections =
        s.connections.filter (fun p => !(p.1 == a)) := eraseKey_eq_filter a _ hnodup
    have hlen : (eraseKey a s.connections).length + 1 = s.connections.length :=
      length_eraseKey a _ ha
    rw [List.nodup_cons] at hnodupids
    have hmain := ih (handle_disconnection s a)
      (by
        intro id hid
        rw [hstep]
        show containsKey id (eraseKey a s.connections) = true
        rw [herase, containsKey_filter_ne id a _ (fun hida => hnodupids.1 (hida ▸ hid))]
        exact hsub id (List.mem_cons_of_mem a hid))
      hnodupids.2
      (by
        rw [hstep]
        show ((eraseKey a s.connections).map Prod.fst).Nodup
        rw [herase]
        exact ((List.filter_sublist _).map Prod.fst).nodup hnodup)
      (by
        rw [hstep]
        show (s.current_connections + (U32 - 1)) % U32 = (eraseKey a s.connections).length
        rw [hcount, counter_dec_mod _ hpos hlt]
        omega)
      (by
        rw [hstep]
        show (eraseKey a s.connections).length < U32
        omega)
    have hconn : (handle_disconnection s a).connections =
        s.connections.filter (fun p => !(p.1 == a)) := by
      rw [hstep]
      exact herase
    rw [List.foldl_cons]
    refine ⟨?_, ?_⟩
    · rw [hmain.1, hconn, List.filter_filter]
      refine List.filter_congr ?_
      intro p _
      by_cases hpa : p.1 = a <;> simp [hpa, Bool.and_comm]
    · rw [hmain.2, hconn, List.filter_filter]
      congr 1
      refine List.filter_congr ?_
      intro p _
      by_cases hpa : p.1 = a <;> simp [hpa, Bool.and_comm]

/-- C8: on a registry whose keys are duplicate-free and whose admitted counter
matches its size (the state every well-formed run maintains), the sweep keeps
exactly the records with `now - last_activity ≤ timeout` — strict-inequality
evictions only — and the admitted counter ends equal to the surviving-record
count, each eviction having gone through the normal remove path. -/
theorem cleanup_inactive_spec (s : CMState) (now timeout : Nat)
    (hnodup : (s.connections.map Prod.fst).Nodup)
    (hcount : s.current_connections = s.connections.length)
    (hlt : s.connections.length < U32) :
    (cleanup_inactive_connections s now timeout).connections =
      s.connections.filter (fun p => decide (now - p.2.last_activity ≤ timeout)) ∧
    (cleanup_inactive_connections s now timeout).current_connections =
      (cleanup_inactive_connections s now timeout).connections.length := by
  have hsub : ∀ id ∈ (s.connections.filter
      (fun p => decide (timeout < now - p.2.last_activity))).map Prod.fst,
      containsKey id s.connections = true := by
    intro id hid
    obtain ⟨p, hp, hpid⟩ := List.mem_map.mp hid
    exact hpid ▸ containsKey_of_mem s.connections p (List.mem_of_mem_filter hp)
  have hnodupids : ((s.connections.filter
      (fun p => decide (timeout < now - p.2.last_activity))).map Prod.fst).Nodup :=
    ((List.filter_sublist _).map Prod.fst).nodup hnodup
  have hmain := foldl_disconnection_spec _ s hsub hnodupids hnodup hcount hlt
  have hfold : cleanup_inactive_connections s now timeout =
      ((s.connections.filter
        (fun p => decide (timeout < now - p.2.last_activity))).map Prod.fst).foldl
        handle_disconnection s := rfl
  have hpred : s.connections.filter (fun p =>
      !(((s.connections.filter
        (fun p => decide (timeout < now - p.2.last_activity))).map Prod.fst).contains p.1)) =
      s.connections.filter (fun p => decide (now - p.2.last_activity ≤ timeout)) := by
    refine List.filter_congr ?_
    intro p hp
    by_cases hq : timeout < now - p.2.last_activity
    · have : p.1 ∈ (s.connections.filter
          (fun p => decide (timeout < now - p.2.last_activity))).map Prod.fst :=
        List.mem_map_of_mem Prod.fst (List.mem_filter.mpr ⟨hp, by simpa using hq⟩)
      simp [this, Nat.not_le.mpr hq]
    · have : p.1 ∉ (s.connections.filter
          (fun p => decide (timeout < now - p.2.last_activity))).map Prod.fst := by
        intro hmem
        obtain ⟨q, hqf, hqid⟩ := List.mem_map.mp hmem
        have hq' := nodupKeys_inj s.connections hnodup q p
          (List.mem_of_mem_filter hqf) hp hqid
        rw [hq'] at hqf
        exact hq (by simpa using (List.mem_filter.mp hqf).2)
      simp [this, Nat.not_lt.mp hq]
  rw [hfold]
  exact ⟨hmain.1.trans hpred, by rw [hmain.2, hmain.1]⟩

/-- Registry after admitting `"c1"` at tick 0 and `"c2"` at tick 6. -/
def sweepCM : CMState :=
  (handle_new_connection
    (handle_new_connection
      { max_connections := 10, current_connections := 0, connections := [] }
      "c1" "ip1" 0).2
    "c2" "ip2" 6).2

/-- C8 witness: sweeping `sweepCM` at tick 7 with timeout 1 keeps exactly the
records inactive for at most 1 tick (`"c2"`, admitted at tick 6) and leaves
the admitted counter equal to the surviving-record count. -/
theorem cleanup_inactive_spec_witness :
    (cleanup_inactive_connections sweepCM 7 1).connections =
      sweepCM.connections.filter (fun p => decide (7 - p.2.last_activity ≤ 1)) ∧
    (cleanup_inactive_connections sweepCM 7 1).current_connections =
      (cleanup_inactive_connections sweepCM 7 1).connections.length :=
  cleanup_inactive_spec sweepCM 7 1 (by decide) (by decide) (by decide)

end MMORPG
